import Mathlib

/-!
Shallow embedding of the lock-free stack variants in src/lock_free.cpp:
the plain Treiber stack (lock_free_stack), the hazard-pointer variant
(lock_free_stack_with_hazard together with the hazard-pointer registry and
retire list), and the split reference-count variant (lock_free_stack_rf).

Pointers are modelled as node indices into an allocation list (Option Nat,
none standing for nullptr).  Interleaving with other threads is modelled by
oracles: lists of the values that the atomic loads and compare-and-swap
operations observe.  Single-thread (no interference) specializations, in
which every compare-and-swap succeeds on its first attempt against the value
just read, are given for whole-stack runs.
-/

namespace LockFree

/-- A pointer is a node index, or none for nullptr. -/
abbrev Ptr := Option Nat

/-- Node of lock_free_stack and lock_free_stack_with_hazard
(src/lock_free.cpp:42-49 and 257-264): payload plus raw successor pointer. -/
structure Node (α : Type) where
  data : α
  next : Ptr

/-- State of lock_free_stack (src/lock_free.cpp:38-65): the allocated nodes
(index = address, allocation appends) and the atomic head. -/
structure lock_free_stack (α : Type) where
  mem : List (Node α)
  head : Ptr

def lock_free_stack.empty {α : Type} : lock_free_stack α := ⟨[], none⟩

/-- push (src/lock_free.cpp:52-57), single-thread specialization: the node is
allocated, its next set to the head just read, and the CAS succeeds on the
first attempt. -/
def lock_free_stack.push {α : Type} (s : lock_free_stack α) (v : α) : lock_free_stack α :=
  ⟨s.mem ++ [⟨v, s.head⟩], some s.mem.length⟩

/-- pop (src/lock_free.cpp:58-64), single-thread specialization: head.load,
then the CAS to the successor succeeds at once; returns the payload, or none
(the null shared_ptr) when the head was null. -/
def lock_free_stack.pop {α : Type} (s : lock_free_stack α) : Option α × lock_free_stack α :=
  match s.head with
  | none => (none, s)
  | some i =>
    match s.mem.get? i with
    | none => (none, s)
    | some nd => (some nd.data, { s with head := nd.next })

/-- n repeated pops. -/
def lock_free_stack.popN {α : Type} : lock_free_stack α → Nat → List (Option α) × lock_free_stack α
  | s, 0 => ([], s)
  | s, n + 1 =>
    let r := s.pop
    let rs := r.2.popN n
    (r.1 :: rs.1, rs.2)

/-- One round of the push CAS retry loop (src/lock_free.cpp:56 and 349-352),
generic in the head type.  Each oracle entry is the head value the
compare_exchange_weak observes, paired with a flag that is false on a
spurious weak-CAS failure.  On failure the observed head is written back
into the expected slot (new_node->next), so the retry uses a fresh head
snapshot.  Returns (final value of new_node->next, new head) on success, or
none when the oracle runs out. -/
def push_cas_loop {β : Type} [DecidableEq β] (inst : β) : β → List (β × Bool) → Option (β × β)
  | _, [] => none
  | expected, (obs, ok) :: rest =>
    if obs = expected ∧ ok then some (expected, inst)
    else push_cas_loop inst obs rest

/-- push of lock_free_stack under interference (src/lock_free.cpp:52-57):
allocate the node, set its next to the head snapshot, then CAS-install with
retries driven by the oracle. -/
def lock_free_stack.pushContended {α : Type} (s : lock_free_stack α) (v : α)
    (orc : List (Ptr × Bool)) : Option (lock_free_stack α) :=
  (push_cas_loop (some s.mem.length) s.head orc).map
    (fun p => ⟨s.mem ++ [⟨v, p.1⟩], p.2⟩)

/-- counted_node_ptr (src/lock_free.cpp:308-312). -/
structure counted_node_ptr where
  external_count : Int
  ptr : Ptr
deriving DecidableEq

/-- node of lock_free_stack_rf (src/lock_free.cpp:313-322).  data is an
Option because a successful pop swaps the payload out of the node. -/
structure NodeRf (α : Type) where
  data : Option α
  internal_count : Int
  next : counted_node_ptr

/-- State of lock_free_stack_rf (src/lock_free.cpp:303-387): allocated
nodes, the log of node ids passed to delete (in order), and the compound
atomic head. -/
structure lock_free_stack_rf (α : Type) where
  mem : List (NodeRf α)
  freed : List Nat
  head : counted_node_ptr

def lock_free_stack_rf.empty {α : Type} : lock_free_stack_rf α := ⟨[], [], ⟨0, none⟩⟩

/-- increase_head_count (src/lock_free.cpp:324-337) under interference: each
oracle entry is the head value the strong CAS observes; success requires it
to equal the current expected value, failure stores the observed head back
into old_counter.  Returns the updated old_counter (external_count bumped by
one, same ptr), or none when the oracle runs out. -/
def increase_head_count : counted_node_ptr → List counted_node_ptr → Option counted_node_ptr
  | _, [] => none
  | old, obs :: rest =>
    if obs = old then some ⟨old.external_count + 1, old.ptr⟩
    else increase_head_count obs rest

/-- The fetch-add settlement on the winning branch of pop
(src/lock_free.cpp:371-376): add external_count - 2 to internal_count; the
node is deleted exactly when the value before the add equals the negated
increment.  Returns (new internal_count, deleted). -/
def settleSuccess (ec ic : Int) : Int × Bool :=
  let inc := ec - 2
  (ic + inc, decide (ic = -inc))

/-- The fetch-add settlement on the losing branch of pop
(src/lock_free.cpp:379-384): fetch_add(-1); the node is deleted exactly when
the value before the add was 1.  Returns (new internal_count, deleted). -/
def settleFailure (ic : Int) : Int × Bool :=
  (ic - 1, decide (ic = 1))

/-- Interference oracle for one iteration of the pop loop of
lock_free_stack_rf (src/lock_free.cpp:358-385): the head values observed by
the CAS attempts inside increase_head_count, and the head value observed by
the main compare-and-swap. -/
structure IterOracle where
  incObs : List counted_node_ptr
  mainObs : counted_node_ptr

/-- Result of one iteration of the rf pop loop: stuck (oracle exhausted, or
a dangling node id), return from pop, or loop again with the updated
old_head.  freed is the node id passed to delete during the iteration, if
any. -/
inductive RfStep (α : Type)
  | stuck
  | ret (res : Option α) (mem : List (NodeRf α)) (freed : Option Nat)
  | again (oldHead : counted_node_ptr) (mem : List (NodeRf α)) (freed : Option Nat)

/-- One iteration of the for(;;) loop of lock_free_stack_rf::pop
(src/lock_free.cpp:358-385): claim the head via increase_head_count, return
empty when the claimed ptr is null, otherwise attempt the main CAS; on a win
swap the payload out and settle with settleSuccess, on a loss settle with
settleFailure and go round again with the head value the failed CAS read. -/
def rfPopIter {α : Type} (mem : List (NodeRf α)) (oldHead : counted_node_ptr)
    (orc : IterOracle) : RfStep α :=
  match increase_head_count oldHead orc.incObs with
  | none => .stuck
  | some oh =>
    match oh.ptr with
    | none => .ret none mem none
    | some i =>
      match mem.get? i with
      | none => .stuck
      | some nd =>
        if orc.mainObs = oh then
          let sc := settleSuccess oh.external_count nd.internal_count
          .ret nd.data (mem.set i ⟨none, sc.1, nd.next⟩)
            (if sc.2 then some i else none)
        else
          let sf := settleFailure nd.internal_count
          .again orc.mainObs (mem.set i ⟨nd.data, sf.1, nd.next⟩)
            (if sf.2 then some i else none)

/-- The pop loop of lock_free_stack_rf (src/lock_free.cpp:354-386) driven by
one oracle per iteration.  Returns (result, final node memory, node ids
deleted in order), or none when the oracles run out. -/
def rfPopLoop {α : Type} : counted_node_ptr → List (NodeRf α) → List IterOracle →
    Option (Option α × List (NodeRf α) × List Nat)
  | _, _, [] => none
  | oldHead, mem, orc :: rest =>
    match rfPopIter mem oldHead orc with
    | .stuck => none
    | .ret res m fr => some (res, m, fr.toList)
    | .again oh m fr =>
      (rfPopLoop oh m rest).map (fun r => (r.1, r.2.1, fr.toList ++ r.2.2))

/-- push of lock_free_stack_rf (src/lock_free.cpp:343-353), single-thread
specialization: external_count 1, internal_count 0, next = the head just
read, installed by a first-try CAS. -/
def lock_free_stack_rf.push {α : Type} (s : lock_free_stack_rf α) (v : α) :
    lock_free_stack_rf α :=
  ⟨s.mem ++ [⟨some v, 0, s.head⟩], s.freed, ⟨1, some s.mem.length⟩⟩

/-- push of lock_free_stack_rf under interference (src/lock_free.cpp:343-353). -/
def lock_free_stack_rf.pushContended {α : Type} (s : lock_free_stack_rf α) (v : α)
    (orc : List (counted_node_ptr × Bool)) : Option (lock_free_stack_rf α) :=
  (push_cas_loop ⟨1, some s.mem.length⟩ s.head orc).map
    (fun p => ⟨s.mem ++ [⟨some v, 0, p.1⟩], s.freed, p.2⟩)

/-- pop of lock_free_stack_rf (src/lock_free.cpp:354-386), single-thread
specialization: increase_head_count succeeds at once (bumping the head's
external count), and for a non-empty stack the main CAS wins at once and the
winning settlement runs. -/
def lock_free_stack_rf.pop {α : Type} (s : lock_free_stack_rf α) :
    Option α × lock_free_stack_rf α :=
  let oldHead : counted_node_ptr := ⟨s.head.external_count + 1, s.head.ptr⟩
  match oldHead.ptr with
  | none => (none, { s with head := oldHead })
  | some i =>
    match s.mem.get? i with
    | none => (none, { s with head := oldHead })
    | some nd =>
      let sc := settleSuccess oldHead.external_count nd.internal_count
      (nd.data,
        { mem := s.mem.set i ⟨none, sc.1, nd.next⟩,
          freed := if sc.2 then s.freed ++ [i] else s.freed,
          head := nd.next })

/-- n repeated pops. -/
def lock_free_stack_rf.popN {α : Type} :
    lock_free_stack_rf α → Nat → List (Option α) × lock_free_stack_rf α
  | s, 0 => ([], s)
  | s, n + 1 =>
    let r := s.pop
    let rs := r.2.popN n
    (r.1 :: rs.1, rs.2)

inductive PushError
  | allocationFailure
deriving DecidableEq

/-- push with an explicit allocation outcome: in both variants the node is
allocated before anything is written to the head (src/lock_free.cpp:54 and
346), so a thrown allocation failure propagates before the stack is
touched. -/
def lock_free_stack.pushFallible {α : Type} (s : lock_free_stack α) (v : α)
    (allocOk : Bool) : Except PushError Unit × lock_free_stack α :=
  if allocOk then (.ok (), s.push v) else (.error .allocationFailure, s)

/-- push of lock_free_stack_rf with an explicit allocation outcome
(src/lock_free.cpp:343-353, allocation on line 346 precedes all head
writes). -/
def lock_free_stack_rf.pushFallible {α : Type} (s : lock_free_stack_rf α) (v : α)
    (allocOk : Bool) : Except PushError Unit × lock_free_stack_rf α :=
  if allocOk then (.ok (), s.push v) else (.error .allocationFailure, s)

/-- max_hazard_pointers (src/lock_free.cpp:153). -/
def max_hazard_pointers : Nat := 100

/-- hazard_pointer slot (src/lock_free.cpp:154-158): owning thread id (none
stands for the default std::thread::id, i.e. unowned) and the published
pointer. -/
structure hazard_pointer where
  id : Option Nat
  pointer : Ptr
deriving DecidableEq

inductive HPError
  | resourcesExhausted
deriving DecidableEq

/-- hp_owner constructor (src/lock_free.cpp:166-183): scan the table in
order and claim the first slot whose id CAS-es from the default id to tid;
when no slot can be claimed, throw the resource-exhaustion error
(std::runtime_error on line 181).  Returns the index of the claimed slot and
the updated table. -/
def hp_owner_ctor : List hazard_pointer → Nat → Except HPError (Nat × List hazard_pointer)
  | [], _ => .error .resourcesExhausted
  | sl :: rest, tid =>
    if sl.id = none then .ok (0, { sl with id := some tid } :: rest)
    else
      match hp_owner_ctor rest tid with
      | .ok pr => .ok (pr.1 + 1, sl :: pr.2)
      | .error e => .error e

/-- get_hazard_pointer_for_current_thread (src/lock_free.cpp:194-198): the
thread_local hp_owner is constructed on the thread's first call; later calls
reuse the slot the thread already owns. -/
def get_hazard_pointer_for_current_thread (slots : List hazard_pointer) (tid : Nat)
    (owned : Option Nat) : Except HPError (Nat × List hazard_pointer) :=
  match owned with
  | some i => .ok (i, slots)
  | none => hp_owner_ctor slots tid

/-- outstanding_hazard_pointers_for exactly as the source defines it
(src/lock_free.cpp:227-229): it ignores its argument and returns false
without reading the hazard table. -/
def outstanding_hazard_pointers_for (data : Nat) : Bool := false

/-- Whether some hazard slot currently publishes the pointer p. -/
def slotProtects (slots : List hazard_pointer) (p : Nat) : Bool :=
  slots.any (fun sl => sl.pointer = some p)

inductive ReclaimAction
  | freeNow
  | retireLater
deriving DecidableEq

/-- The reclamation decision of lock_free_stack_with_hazard::pop
(src/lock_free.cpp:288-295): delete the popped node immediately unless
outstanding_hazard_pointers_for reports it protected, in which case append
it to the retire list. -/
def popReclaimAction (oldHead : Nat) : ReclaimAction :=
  if outstanding_hazard_pointers_for oldHead then .retireLater else .freeNow

/-- delete_nodes_with_no_hazards (src/lock_free.cpp:235-251): walk the
retire list, delete every entry without outstanding hazard pointers and
re-add the rest.  Returns (deleted ids, re-added ids). -/
def delete_nodes_with_no_hazards : List Nat → List Nat × List Nat
  | [] => ([], [])
  | p :: rest =>
    let r := delete_nodes_with_no_hazards rest
    if outstanding_hazard_pointers_for p then (r.1, p :: r.2)
    else (p :: r.1, r.2)

/-- The publish loop of lock_free_stack_with_hazard::pop
(src/lock_free.cpp:274-279): store old_head into the hazard slot, reload the
head, and repeat until the reload equals the value just published.  The
oracle lists the successive head.load results.  Returns (old_head at exit,
hazard slot contents at exit), or none when the oracle runs out. -/
def hpPublishLoop : Ptr → List Ptr → Option (Ptr × Ptr)
  | _, [] => none
  | old, r :: rs => if r = old then some (r, old) else hpPublishLoop r rs

/-- The outer do-while of lock_free_stack_with_hazard::pop
(src/lock_free.cpp:271-282), one oracle entry per round: the head.load
results feeding the publish loop, and the head value the strong CAS
observes (the CAS succeeds exactly when it equals old_head; on failure it is
written back into old_head).  When old_head is null after the publish loop
the while condition is false and no CAS is attempted.  acc records every CAS
attempt as (expected old_head, hazard slot contents at that moment).
Returns (old_head at loop exit, all recorded attempts). -/
def hpPopLoop : Ptr → List (List Ptr × Ptr) → List (Ptr × Ptr) →
    Option (Ptr × List (Ptr × Ptr))
  | _, [], _ => none
  | old, (reads, casObs) :: rest, acc =>
    match hpPublishLoop old reads with
    | none => none
    | some pr =>
      match pr.1 with
      | none => some (none, acc)
      | some _ =>
        let acc2 := acc ++ [(pr.1, pr.2)]
        if casObs = pr.1 then some (pr.1, acc2)
        else hpPopLoop casObs rest acc2

/-- State of lock_free_stack_with_hazard together with the global retire
list and a log of deleted node ids (src/lock_free.cpp:221 and 253-300). -/
structure lock_free_stack_with_hazard (α : Type) where
  mem : List (Node α)
  head : Ptr
  retire : List Nat
  freed : List Nat

def lock_free_stack_with_hazard.empty {α : Type} : lock_free_stack_with_hazard α :=
  ⟨[], none, [], []⟩

/-- lock_free_stack_with_hazard::pop (src/lock_free.cpp:267-299),
single-thread specialization over the stack state: the hazard slot is
acquired first (line 269), only then is the head read; with no interference
the publish loop converges at once and the CAS wins.  On a non-empty stack
the popped node is freed or retired according to popReclaimAction and the
retire list is then scanned by delete_nodes_with_no_hazards. -/
def hazardPop {α : Type} (slots : List hazard_pointer) (tid : Nat) (owned : Option Nat)
    (s : lock_free_stack_with_hazard α) :
    Except HPError (Option α × lock_free_stack_with_hazard α × List hazard_pointer) :=
  match get_hazard_pointer_for_current_thread slots tid owned with
  | .error e => .error e
  | .ok pr =>
    match s.head with
    | none => .ok (none, s, pr.2)
    | some i =>
      match s.mem.get? i with
      | none => .ok (none, s, pr.2)
      | some nd =>
        let retire1 := if popReclaimAction i = .retireLater then i :: s.retire else s.retire
        let freedNow := if popReclaimAction i = .freeNow then [i] else []
        let scan := delete_nodes_with_no_hazards retire1
        .ok (some nd.data,
          { mem := s.mem, head := nd.next, retire := scan.2,
            freed := s.freed ++ freedNow ++ scan.1 }, pr.2)

/-! Helper lemmas shared by several claim theorems. -/

/-- A table in which every slot is owned yields the resource-exhaustion
error from the hp_owner constructor. -/
lemma hp_ctor_full (slots : List hazard_pointer) (tid : Nat)
    (h : ∀ sl ∈ slots, sl.id ≠ none) :
    hp_owner_ctor slots tid = .error .resourcesExhausted := by
  induction slots with
  | nil => rfl
  | cons sl rest ih =>
    have h1 : sl.id ≠ none := h sl (by simp)
    have h2 := ih (fun x hx => h x (by simp [hx]))
    simp [hp_owner_ctor, h1, h2]

/-- The publish loop only exits with the hazard slot equal to the agreed
old_head. -/
lemma hpPublishLoop_slot (old : Ptr) (reads : List Ptr) (oh slot : Ptr)
    (h : hpPublishLoop old reads = some (oh, slot)) : slot = oh := by
  induction reads generalizing old with
  | nil => simp [hpPublishLoop] at h
  | cons r rs ih =>
    by_cases hr : r = old
    · simp only [hpPublishLoop, if_pos hr, Option.some.injEq, Prod.mk.injEq] at h
      obtain ⟨h1, h2⟩ := h
      rw [← h1, ← h2, hr]
    · simp only [hpPublishLoop, if_neg hr] at h
      exact ih r h

/-- Every CAS attempt recorded by the outer pop loop has the hazard slot
equal to the expected head, provided the accumulator already does. -/
lemma hpPopLoop_attempts (orc : List (List Ptr × Ptr)) :
    ∀ (old : Ptr) (acc : List (Ptr × Ptr)) (res : Ptr) (attempts : List (Ptr × Ptr)),
    (∀ a ∈ acc, a.2 = a.1) →
    hpPopLoop old orc acc = some (res, attempts) →
    ∀ a ∈ attempts, a.2 = a.1 := by
  induction orc with
  | nil =>
    intro old acc res attempts hacc h
    simp [hpPopLoop] at h
  | cons e rest ih =>
    intro old acc res attempts hacc h
    obtain ⟨reads, casObs⟩ := e
    cases hp : hpPublishLoop old reads with
    | none =>
      simp only [hpPopLoop, hp] at h
      exact Option.noConfusion h
    | some pr =>
      obtain ⟨oh, slot⟩ := pr
      have hslot : slot = oh := hpPublishLoop_slot old reads oh slot (by rw [hp])
      have hacc2 : ∀ a ∈ acc ++ [(oh, slot)], a.2 = a.1 := by
        intro a ha
        rcases List.mem_append.mp ha with h1 | h1
        · exact hacc a h1
        · simp at h1
          rw [h1, hslot]
      cases oh with
      | none =>
        simp only [hpPopLoop, hp, Option.some.injEq, Prod.mk.injEq] at h
        rw [← h.2]
        exact hacc
      | some j =>
        by_cases hc : casObs = some j
        · simp only [hpPopLoop, hp, if_pos hc, Option.some.injEq, Prod.mk.injEq] at h
          rw [← h.2]
          exact hacc2
        · simp only [hpPopLoop, hp, if_neg hc] at h
          exact ih casObs (acc ++ [(some j, slot)]) res attempts hacc2 h

/-- The push CAS loop can only succeed by installing the new head, with the
final next field equal to a head value observed by a non-spurious attempt. -/
lemma push_cas_loop_mem {β : Type} [DecidableEq β] (inst : β) (e : β)
    (orc : List (β × Bool)) (w h : β)
    (hh : push_cas_loop inst e orc = some (w, h)) : h = inst ∧ (w, true) ∈ orc := by
  induction orc generalizing e with
  | nil => simp [push_cas_loop] at hh
  | cons p rest ih =>
    obtain ⟨obs, ok⟩ := p
    by_cases hc : obs = e ∧ ok = true
    · simp only [push_cas_loop, if_pos hc, Option.some.injEq, Prod.mk.injEq] at hh
      refine ⟨hh.2.symm, ?_⟩
      rw [← hh.1, ← hc.1, ← hc.2]
      exact List.mem_cons_self _ _
    · simp only [push_cas_loop, if_neg hc] at hh
      obtain ⟨g1, g2⟩ := ih obs hh
      exact ⟨g1, List.mem_cons_of_mem _ g2⟩

/-! Claim theorems. -/

/-- C1: the claim fails on the source.  outstanding_hazard_pointers_for is a
constant-false stub that never scans the hazard table, so pop decides to
free the popped node immediately even while another hazard slot publishes
exactly that node, and the retire-list scan deletes every entry (here node
5) under the same condition.  Evaluated at the failing input: slot owned by
thread 2 protects node 5, yet the reclamation decision is freeNow and the
scan of a retire list holding node 5 deletes it. -/
theorem c1_free_despite_hazard :
    slotProtects [⟨some 2, some 5⟩] 5 = true ∧
    popReclaimAction 5 = ReclaimAction.freeNow ∧
    delete_nodes_with_no_hazards [5] = ([5], []) := by
  decide

/-- C2: a pop iteration that wins the head compare-and-swap returns the
node's payload, adds exactly claimed external_count - 2 to its
internal_count, and deletes the node precisely when the combined count
settles to zero (the pre-add value equalled the negated increment). -/
theorem c2_pop_win_settlement {α : Type} (mem : List (NodeRf α))
    (oldHead : counted_node_ptr) (orc : IterOracle) (oh : counted_node_ptr)
    (i : Nat) (nd : NodeRf α)
    (h1 : increase_head_count oldHead orc.incObs = some oh)
    (h2 : oh.ptr = some i) (h3 : mem.get? i = some nd) (h4 : orc.mainObs = oh) :
    rfPopIter mem oldHead orc =
      RfStep.ret nd.data
        (mem.set i ⟨none, nd.internal_count + (oh.external_count - 2), nd.next⟩)
        (if nd.internal_count + (oh.external_count - 2) = 0 then some i else none) := by
  simp only [List.get?_eq_getElem?] at h3
  have hiff : (nd.internal_count = -(oh.external_count - 2)) ↔
      (nd.internal_count + (oh.external_count - 2) = 0) := by omega
  have hiff2 : (nd.internal_count = 2 - oh.external_count) ↔
      (nd.internal_count + (oh.external_count - 2) = 0) := by omega
  simp [rfPopIter, h1, h2, h3, h4, settleSuccess, hiff, hiff2]

/-- C2 witness: winning pop on a one-claim node (claimed external count 2,
internal count 0): the increment is 0, the pre-add value 0 equals its
negation, so the node is deleted. -/
theorem c2_pop_win_settlement_witness :
    rfPopIter [⟨some (7 : Nat), 0, ⟨0, none⟩⟩] ⟨1, some 0⟩
        ⟨[⟨1, some 0⟩], ⟨2, some 0⟩⟩ =
      RfStep.ret (some 7) [⟨none, 0, ⟨0, none⟩⟩] (some 0) := by
  have h := c2_pop_win_settlement [⟨some (7 : Nat), 0, ⟨0, none⟩⟩] ⟨1, some 0⟩
    ⟨[⟨1, some 0⟩], ⟨2, some 0⟩⟩ ⟨2, some 0⟩ 0 ⟨some 7, 0, ⟨0, none⟩⟩ rfl rfl rfl rfl
  simpa using h

/-- C3: a pop iteration whose head compare-and-swap fails decrements the
claimed node's internal_count by exactly one, deletes the node precisely
when that decrement drives the count to zero (pre-decrement value one), and
the pop loop then continues from the top with the head value the failed CAS
read, re-claiming it through increase_head_count. -/
theorem c3_pop_lose_release {α : Type} (mem : List (NodeRf α))
    (oldHead : counted_node_ptr) (orc : IterOracle) (oh : counted_node_ptr)
    (i : Nat) (nd : NodeRf α)
    (h1 : increase_head_count oldHead orc.incObs = some oh)
    (h2 : oh.ptr = some i) (h3 : mem.get? i = some nd) (h4 : orc.mainObs ≠ oh) :
    rfPopIter mem oldHead orc =
      RfStep.again orc.mainObs (mem.set i ⟨nd.data, nd.internal_count - 1, nd.next⟩)
        (if nd.internal_count - 1 = 0 then some i else none) ∧
    ∀ (rest : List IterOracle),
      rfPopLoop oldHead mem (orc :: rest) =
        (rfPopLoop orc.mainObs
            (mem.set i ⟨nd.data, nd.internal_count - 1, nd.next⟩) rest).map
          (fun r => (r.1, r.2.1,
            (if nd.internal_count - 1 = 0 then (some i : Option Nat) else none).toList
              ++ r.2.2)) := by
  have hiff : (nd.internal_count = 1) ↔ (nd.internal_count - 1 = 0) := by omega
  have hmain : rfPopIter mem oldHead orc =
      RfStep.again orc.mainObs (mem.set i ⟨nd.data, nd.internal_count - 1, nd.next⟩)
        (if nd.internal_count - 1 = 0 then some i else none) := by
    have h3g : mem[i]? = some nd := by simpa [List.get?_eq_getElem?] using h3
    simp [rfPopIter, h1, h2, h3g, h4, settleFailure, hiff]
  refine ⟨hmain, fun rest => ?_⟩
  simp only [rfPopLoop, hmain]

/-- C3 witness: losing pop on a node with internal count 2: the count drops
to 1, the node is not deleted, and the loop continues with the freshly read
head. -/
theorem c3_pop_lose_release_witness :
    rfPopIter [⟨some (7 : Nat), 2, ⟨0, none⟩⟩] ⟨1, some 0⟩
        ⟨[⟨1, some 0⟩], ⟨5, none⟩⟩ =
      RfStep.again ⟨5, none⟩ [⟨some 7, 1, ⟨0, none⟩⟩] none := by
  have h := (c3_pop_lose_release [⟨some (7 : Nat), 2, ⟨0, none⟩⟩] ⟨1, some 0⟩
    ⟨[⟨1, some 0⟩], ⟨5, none⟩⟩ ⟨2, some 0⟩ 0 ⟨some 7, 2, ⟨0, none⟩⟩ rfl rfl rfl
    (by decide)).1
  simpa using h

/-- C4: in the hazard-pointer pop, the publish loop only exits once the head
read after publishing equals the value published, leaving the hazard slot
equal to old_head; consequently at every head compare-and-swap attempt of
the outer loop the hazard slot holds exactly the expected head value used by
that CAS. -/
theorem c4_hazard_published :
    (∀ (old : Ptr) (reads : List Ptr) (oh slot : Ptr),
        hpPublishLoop old reads = some (oh, slot) → slot = oh) ∧
    (∀ (old : Ptr) (orc : List (List Ptr × Ptr)) (res : Ptr)
        (attempts : List (Ptr × Ptr)),
        hpPopLoop old orc [] = some (res, attempts) →
        ∀ a ∈ attempts, a.2 = a.1) :=
  ⟨hpPublishLoop_slot,
   fun old orc res attempts h =>
     hpPopLoop_attempts orc old [] res attempts (by simp) h⟩

/-- C4 witness: a concrete run reading head = node 3 twice attempts one CAS
with the hazard slot holding node 3. -/
theorem c4_hazard_published_witness :
    ((some 3 : Ptr), (some 3 : Ptr)).2 = ((some 3 : Ptr), (some 3 : Ptr)).1 :=
  c4_hazard_published.2 (some 3) [([some 3], some 3)] (some 3)
    [((some 3 : Ptr), (some 3 : Ptr))] rfl ((some 3 : Ptr), (some 3 : Ptr)) (by simp)

/-- C5: push allocates a node holding v whose successor is a head snapshot,
and installs it by CAS: a successful contended push (in either variant)
leaves the head pointing at the new node, and the new node's successor is a
head value observed by the winning (non-spurious) CAS attempt; a failing
CAS attempt retries with the freshly observed head as the new snapshot. -/
theorem c5_push_protocol {α : Type} :
    (∀ (s : lock_free_stack α) (v : α) (orc : List (Ptr × Bool))
        (s2 : lock_free_stack α),
        s.pushContended v orc = some s2 →
        s2.head = some s.mem.length ∧
        ∃ w, s2.mem.get? s.mem.length = some ⟨v, w⟩ ∧ (w, true) ∈ orc) ∧
    (∀ (s : lock_free_stack_rf α) (v : α) (orc : List (counted_node_ptr × Bool))
        (s2 : lock_free_stack_rf α),
        s.pushContended v orc = some s2 →
        s2.head = ⟨1, some s.mem.length⟩ ∧
        ∃ w, s2.mem.get? s.mem.length = some ⟨some v, 0, w⟩ ∧ (w, true) ∈ orc) ∧
    (∀ (inst e obs : Ptr) (ok : Bool) (rest : List (Ptr × Bool)),
        obs = e → ok = true →
        push_cas_loop inst e ((obs, ok) :: rest) = some (e, inst)) ∧
    (∀ (inst e obs : Ptr) (ok : Bool) (rest : List (Ptr × Bool)),
        ¬(obs = e ∧ ok = true) →
        push_cas_loop inst e ((obs, ok) :: rest) = push_cas_loop inst obs rest) := by
  refine ⟨?_, ?_, ?_, ?_⟩
  · intro s v orc s2 h
    unfold lock_free_stack.pushContended at h
    cases hl : push_cas_loop (some s.mem.length) s.head orc with
    | none => rw [hl] at h; exact Option.noConfusion h
    | some p =>
      rw [hl] at h
      simp only [Option.map_some', Option.some.injEq] at h
      obtain ⟨g1, g2⟩ := push_cas_loop_mem (some s.mem.length) s.head orc p.1 p.2
        (by rw [hl])
      refine ⟨?_, p.1, ?_, g2⟩
      · rw [← h]; exact g1
      · rw [← h]
        exact List.get?_concat_length s.mem ⟨v, p.1⟩
  · intro s v orc s2 h
    unfold lock_free_stack_rf.pushContended at h
    cases hl : push_cas_loop (⟨1, some s.mem.length⟩ : counted_node_ptr) s.head orc with
    | none => rw [hl] at h; exact Option.noConfusion h
    | some p =>
      rw [hl] at h
      simp only [Option.map_some', Option.some.injEq] at h
      obtain ⟨g1, g2⟩ := push_cas_loop_mem (⟨1, some s.mem.length⟩ : counted_node_ptr)
        s.head orc p.1 p.2 (by rw [hl])
      refine ⟨?_, p.1, ?_, g2⟩
      · rw [← h]; exact g1
      · rw [← h]
        exact List.get?_concat_length s.mem ⟨some v, 0, p.1⟩
  · intro inst e obs ok rest hobs hok
    subst hobs
    subst hok
    simp [push_cas_loop]
  · intro inst e obs ok rest hc
    simp only [push_cas_loop, if_neg hc]

/-- C5 witness: pushing 7 onto an empty plain stack with one successful CAS
attempt installs node 0 as the head, with a null successor. -/
theorem c5_push_protocol_witness :
    (⟨[⟨(7 : Nat), none⟩], some 0⟩ : lock_free_stack Nat).head = some 0 ∧
    ∃ w, (⟨[⟨(7 : Nat), none⟩], some 0⟩ : lock_free_stack Nat).mem.get? 0 =
        some ⟨7, w⟩ ∧ (w, true) ∈ [((none : Ptr), true)] :=
  (c5_push_protocol (α := Nat)).1 ⟨[], none⟩ 7 [(none, true)]
    ⟨[⟨7, none⟩], some 0⟩ rfl

/-- C6: a single thread pushing v1, v2, v3 on an empty stack and popping
three times observes v3, v2, v1, in both the plain and the split
reference-count variants. -/
theorem c6_lifo_three {α : Type} (v1 v2 v3 : α) :
    ((((lock_free_stack.empty.push v1).push v2).push v3).pop).1 = some v3 ∧
    (((((lock_free_stack.empty.push v1).push v2).push v3).pop).2.pop).1 = some v2 ∧
    ((((((lock_free_stack.empty.push v1).push v2).push v3).pop).2.pop).2.pop).1
      = some v1 ∧
    ((((lock_free_stack_rf.empty.push v1).push v2).push v3).pop).1 = some v3 ∧
    (((((lock_free_stack_rf.empty.push v1).push v2).push v3).pop).2.pop).1 = some v2 ∧
    ((((((lock_free_stack_rf.empty.push v1).push v2).push v3).pop).2.pop).2.pop).1
      = some v1 :=
  ⟨rfl, rfl, rfl, rfl, rfl, rfl⟩

/-- C7 counterexample: in the split reference-count variant an empty pop
does change the compound head value: increase_head_count bumps
external_count from 0 to 1 even though the node reference stays null, so
the state is not left unchanged as claimed. -/
theorem c7_rf_empty_pop_changes_head :
    ((lock_free_stack_rf.empty (α := Nat)).pop).1 = none ∧
    ((lock_free_stack_rf.empty (α := Nat)).pop).2.head ≠
      (lock_free_stack_rf.empty (α := Nat)).head := by
  exact ⟨rfl, by decide⟩

/-- C7 amended: pop on an empty stack returns Empty in both variants and
repeated empty pops keep returning Empty; the plain variant's state is left
completely unchanged, and in the split reference-count variant the node
reference stays null and the node memory and free log are untouched, but
each empty pop increments the head's external_count by one (so the compound
head value does change). -/
theorem c7_empty_pop_amended {α : Type} :
    (∀ (s : lock_free_stack α) (n : Nat), s.head = none →
        s.popN n = (List.replicate n none, s)) ∧
    (∀ (s : lock_free_stack_rf α), s.head.ptr = none →
        s.pop = (none, { s with head := ⟨s.head.external_count + 1, none⟩ })) ∧
    (∀ (s : lock_free_stack_rf α) (n : Nat), s.head.ptr = none →
        (s.popN n).1 = List.replicate n none ∧
        (s.popN n).2.mem = s.mem ∧ (s.popN n).2.freed = s.freed ∧
        (s.popN n).2.head = ⟨s.head.external_count + n, none⟩) := by
  have hplain : ∀ (s : lock_free_stack α), s.head = none → s.pop = (none, s) := by
    intro s h
    simp [lock_free_stack.pop, h]
  have hrf : ∀ (s : lock_free_stack_rf α), s.head.ptr = none →
      s.pop = (none, { s with head := ⟨s.head.external_count + 1, none⟩ }) := by
    intro s h
    simp [lock_free_stack_rf.pop, h]
  refine ⟨?_, hrf, ?_⟩
  · intro s n h
    induction n with
    | zero => simp [lock_free_stack.popN]
    | succ n ih =>
      simp [lock_free_stack.popN, hplain s h, ih, List.replicate_succ]
  · intro s n h
    induction n generalizing s with
    | zero =>
      refine ⟨rfl, rfl, rfl, ?_⟩
      have he : s.head = ⟨s.head.external_count, s.head.ptr⟩ := rfl
      simp only [lock_free_stack_rf.popN]
      rw [he, h]
      simp
    | succ n ih =>
      have hs := hrf s h
      obtain ⟨g1, g2, g3, g4⟩ :=
        ih { s with head := ⟨s.head.external_count + 1, none⟩ } rfl
      have hres : (s.popN (n + 1)).1 = none :: (({ s with
          head := ⟨s.head.external_count + 1, none⟩ } :
            lock_free_stack_rf α).popN n).1 := by
        simp [lock_free_stack_rf.popN, hs]
      have hstep : (s.popN (n + 1)).2 = (({ s with
          head := ⟨s.head.external_count + 1, none⟩ } :
            lock_free_stack_rf α).popN n).2 := by
        simp [lock_free_stack_rf.popN, hs]
      refine ⟨?_, ?_, ?_, ?_⟩
      · rw [hres, g1, List.replicate_succ]
      · rw [hstep, g2]
      · rw [hstep, g3]
      · rw [hstep, g4]
        congr 1
        push_cast
        ring

/-- C7 witness: two pops on an empty rf stack both return Empty, leave
memory and the free log empty and the node reference null, with
external_count ending at 2. -/
theorem c7_empty_pop_amended_witness :
    ((lock_free_stack_rf.empty (α := Nat)).popN 2).1 = List.replicate 2 none ∧
    ((lock_free_stack_rf.empty (α := Nat)).popN 2).2.mem = [] ∧
    ((lock_free_stack_rf.empty (α := Nat)).popN 2).2.freed = [] ∧
    ((lock_free_stack_rf.empty (α := Nat)).popN 2).2.head = ⟨2, none⟩ := by
  have h := (c7_empty_pop_amended (α := Nat)).2.2 lock_free_stack_rf.empty 2 rfl
  exact ⟨h.1, h.2.1, h.2.2.1, by simpa using h.2.2.2⟩

/-- C8: when every slot of the 100-entry hazard table is owned by a thread
other than the caller, slot acquisition fails with the distinct
resource-exhaustion error (the acquisition function is total, so it neither
crashes nor blocks). -/
theorem c8_hazard_table_saturation (slots : List hazard_pointer) (tid : Nat)
    (hlen : slots.length = max_hazard_pointers)
    (hown : ∀ sl ∈ slots, ∃ t, sl.id = some t ∧ t ≠ tid) :
    hp_owner_ctor slots tid = .error .resourcesExhausted := by
  refine hp_ctor_full slots tid ?_
  intro sl hsl
  obtain ⟨t, ht, _⟩ := hown sl hsl
  simp [ht]

/-- C8 witness: a table of 100 slots all owned by thread 1 refuses thread 0
with ResourcesExhausted. -/
theorem c8_hazard_table_saturation_witness :
    hp_owner_ctor (List.replicate 100 ⟨some 1, none⟩) 0 =
      .error .resourcesExhausted :=
  c8_hazard_table_saturation (List.replicate 100 ⟨some 1, none⟩) 0 (by simp [max_hazard_pointers])
    (by
      intro sl hsl
      rw [List.eq_of_mem_replicate hsl]
      exact ⟨1, rfl, by decide⟩)

/-- C9: a push whose node allocation fails reports AllocationFailure and
leaves the stack exactly as it was, in both variants: allocation happens
before any write to the head. -/
theorem c9_alloc_failure_preserves_stack {α : Type} :
    (∀ (s : lock_free_stack α) (v : α),
        s.pushFallible v false = (.error .allocationFailure, s)) ∧
    (∀ (s : lock_free_stack_rf α) (v : α),
        s.pushFallible v false = (.error .allocationFailure, s)) :=
  ⟨fun _ _ => rfl, fun _ _ => rfl⟩

/-- C10: the hazard-variant pop acquires the calling thread's hazard slot
before reading the head: a thread that owns no slot yet fails with
ResourcesExhausted on a fully-owned table whatever the stack state (so even
on an empty stack), and any non-error pop outcome — Empty included —
implies that slot acquisition succeeded. -/
theorem c10_slot_acquired_before_head {α : Type} :
    (∀ (slots : List hazard_pointer) (tid : Nat)
        (s : lock_free_stack_with_hazard α),
        (∀ sl ∈ slots, sl.id ≠ none) →
        hazardPop slots tid none s = .error .resourcesExhausted) ∧
    (∀ (slots : List hazard_pointer) (tid : Nat) (owned : Option Nat)
        (s : lock_free_stack_with_hazard α)
        (r : Option α × lock_free_stack_with_hazard α × List hazard_pointer),
        hazardPop slots tid owned s = .ok r →
        ∃ pr, get_hazard_pointer_for_current_thread slots tid owned = .ok pr) := by
  constructor
  · intro slots tid s hfull
    simp [hazardPop, get_hazard_pointer_for_current_thread,
      hp_ctor_full slots tid hfull]
  · intro slots tid owned s r h
    cases hg : get_hazard_pointer_for_current_thread slots tid owned with
    | error e =>
      simp only [hazardPop, hg] at h
      exact Except.noConfusion h
    | ok pr => exact ⟨pr, rfl⟩

/-- C10 witness: a slotless thread popping an empty stack against a
fully-owned 100-slot table gets ResourcesExhausted, while against a table
with a free slot the empty pop returns Empty and acquisition indeed
succeeded. -/
theorem c10_slot_acquired_before_head_witness :
    hazardPop (List.replicate 100 ⟨some 1, none⟩) 0 none
        (lock_free_stack_with_hazard.empty (α := Nat)) =
      .error .resourcesExhausted ∧
    ∃ pr, get_hazard_pointer_for_current_thread [⟨none, none⟩] 0 none = .ok pr :=
  ⟨(c10_slot_acquired_before_head (α := Nat)).1 (List.replicate 100 ⟨some 1, none⟩) 0
      lock_free_stack_with_hazard.empty
      (by
        intro sl hsl
        rw [List.eq_of_mem_replicate hsl]
        decide),
   (c10_slot_acquired_before_head (α := Nat)).2 [⟨none, none⟩] 0 none
      lock_free_stack_with_hazard.empty
      (none, lock_free_stack_with_hazard.empty, [⟨some 0, none⟩]) rfl⟩

end LockFree
